import Mathlib

/-!
Shallow embedding of `atat`'s client-side request/response engine
(`src/atat/src/client.rs`): the `Client` state machine with its `send`,
`check_response` and `check_urc` operations, three dispatch modes, the
cooldown timer and the three SPSC queue endpoints.

Modelling conventions:
* Queues are FIFO lists (head = next item to dequeue).  The command
  producer (`com_p`) is a bounded list with capacity `comCap`; `enqueue`
  on a full queue fails, which the code only logs (modelled as a no-op on
  the queue contents).
* The countdown timer is externally driven: each `timer.start(d)` call is
  recorded as an event, and the `timer.wait()` poll inside the Timeout
  branch of `check_response` receives its answer from an `elapsed`
  oracle argument.
* Every externally visible action is also recorded in an append-only
  `events` trace (timer starts, cooldown waits, transport writes,
  command-queue enqueue attempts, response-queue dequeue attempts), so
  ordering claims are statable.
* The transport writer may fail terminally; `txFail = some k` makes the
  write of byte index `k` fail (or the flush, when `k` equals the length
  of the serialized command).  `block!` retry loops on `WouldBlock` from
  the transport are invisible in this model (they terminate with the
  byte accepted).
* `block!(check_response(..))` in Blocking/Timeout mode is a loop that
  re-polls until a non-`WouldBlock` result.  In a single-call model no
  new frames arrive while the loop spins, so re-polling an empty queue
  forever is modelled as the distinguished result `diverge`; the loop is
  run with fuel `resQ.length + 1`, which is always enough to reach
  either a terminal result or the empty queue.
-/

deriving instance DecidableEq for Except

namespace Atat

/-- Rust `enum ClientState { Idle, AwaitingResponse }`. -/
inductive ClientState
  | Idle
  | AwaitingResponse
deriving DecidableEq, Repr

/-- Dispatch mode `Mode` from the crate config: Blocking / NonBlocking / Timeout
(the spec calls the last one BoundedTimeout). -/
inductive Mode
  | Blocking
  | NonBlocking
  | Timeout
deriving DecidableEq, Repr

/-- The error kinds of `atat::Error` that the client core can surface. -/
inductive Error
  | Read
  | Write
  | Timeout
  | InvalidResponse
  | ParseString
  | Aborted
  | Overflow
deriving DecidableEq, Repr

/-- Control tags on the command queue (client → ingress).
`ForceState` always carries `ReceivingResponse` in the client code. -/
inductive Command
  | ForceState
  | ClearBuffer
deriving DecidableEq, Repr

/-- A response/URC payload: a bounded byte sequence, modelled as a list. -/
abbrev Payload := List Nat

/-- Externally visible actions of the client, recorded in order. -/
inductive Event
  | timerStart (d : Nat)
  | cooldownWait
  | txWrite (b : Nat)
  | comAttempt (c : Command)
  | resPoll
deriving DecidableEq, Repr

/-- Config record `Config { mode, cmd_cooldown }` — immutable after construction. -/
structure Config where
  mode : Mode
  cmd_cooldown : Nat
deriving DecidableEq, Repr

/-- The capability set of a typed command (`AtatCmd`): serialized wire
form, per-command timeout, force-receive flag and response parser. -/
structure AtatCmd (R : Type) where
  as_string : List Nat
  max_timeout_ms : Nat
  force_receive_state : Bool
  parse : Payload → Except Error R

/-- The client: queue endpoints, state, config, transport buffer and the
event trace standing in for the timer/transport side effects. -/
structure Client where
  txBuf : List Nat
  resQ : List (Except Error Payload)
  urcQ : List Payload
  comQ : List Command
  comCap : Nat
  state : ClientState
  config : Config
  events : List Event
deriving DecidableEq, Repr

namespace Client

/-- Model of `com_p.enqueue(cmd)`: the attempt is always recorded; the item lands
in the queue only when there is room.  A full queue is only logged by
the code, so it has no other effect. -/
def comEnqueue (c : Client) (cmd : Command) : Client :=
  if c.comQ.length < c.comCap then
    { c with comQ := c.comQ ++ [cmd], events := c.events ++ [.comAttempt cmd] }
  else
    { c with events := c.events ++ [.comAttempt cmd] }

/-- Model of `self.timer.start(d)`. -/
def timerStart (c : Client) (d : Nat) : Client :=
  { c with events := c.events ++ [.timerStart d] }

/-- Durations passed to `timer.start` so far, in order. -/
def timerStarts (c : Client) : List Nat :=
  c.events.filterMap fun e =>
    match e with
    | .timerStart d => some d
    | _ => none

/-- Number of `res_c.dequeue()` attempts so far. -/
def resPolls (c : Client) : Nat :=
  c.events.count .resPoll

/-- Number of blocking cooldown waits (`block!(self.timer.wait())`). -/
def cooldownWaits (c : Client) : Nat :=
  c.events.count .cooldownWait

end Client

/-- Outcome of one `check_response` call, keeping the branches apart:
the code collapses `parseError`, `ingressError` and `timeout` into
`nb::Error::Other(e)` (see `CheckResult.toNb`). -/
inductive CheckResult (R : Type)
  | ok (r : R)
  | parseError (e : Error)
  | ingressError (e : Error)
  | timeout
  | wouldBlock
deriving DecidableEq, Repr

/-- The `nb::Result<R, Error>` value actually returned by the code. -/
inductive NbResult (R : Type)
  | ok (r : R)
  | err (e : Error)
  | wouldBlock
deriving DecidableEq, Repr

/-- Collapse a structured outcome to the `nb::Result` the code returns. -/
def CheckResult.toNb {R : Type} : CheckResult R → NbResult R
  | .ok r => .ok r
  | .parseError e => .err e
  | .ingressError e => .err e
  | .timeout => .err .Timeout
  | .wouldBlock => .wouldBlock

/-- Model of `Client::check_response` (client.rs lines 121–148).
`elapsed` answers the `self.timer.wait().is_ok()` poll in the Timeout
branch. -/
def checkResponse {R : Type} (cmd : AtatCmd R) (elapsed : Bool) (c : Client) :
    CheckResult R × Client :=
  let c0 : Client := { c with events := c.events ++ [.resPoll] }
  match c0.resQ with
  | result :: rest =>
    let c1 : Client := { c0 with resQ := rest }
    match result with
    | .ok resp =>
      match c1.state with
      | .AwaitingResponse =>
        let c2 : Client := c1.timerStart c1.config.cmd_cooldown
        let c3 : Client := { c2 with state := .Idle }
        match cmd.parse resp with
        | .ok r => (.ok r, c3)
        | .error e => (.parseError e, c3)
      | .Idle => (.wouldBlock, c1)
    | .error e => (.ingressError e, c1)
  | [] =>
    match c0.config.mode with
    | .Timeout =>
      if elapsed then
        let c1 : Client := { c0 with state := .Idle }
        let c2 : Client := c1.comEnqueue .ClearBuffer
        (.timeout, c2)
      else
        (.wouldBlock, c0)
    | _ => (.wouldBlock, c0)

/-- Model of `Client::check_urc` (client.rs lines 112–119): if the URC queue is
not ready return `none`; otherwise arm the cooldown timer, dequeue one
item and parse it, dropping a parse error. -/
def checkUrc {U : Type} (parse : Payload → Except Error U) (c : Client) :
    Option U × Client :=
  match c.urcQ with
  | [] => (none, c)
  | item :: rest =>
    let c1 : Client := c.timerStart c.config.cmd_cooldown
    let c2 : Client := { c1 with urcQ := rest }
    ((parse item).toOption, c2)

/-- Model of `Client::get_mode`. -/
def getMode (c : Client) : Mode :=
  c.config.mode

/-- Outcome of one `send` call.  `writeError` is the `Error::Write`
abort during emission; `diverge` marks a blocking re-poll loop that
would spin forever in this single-call model (no new frames arrive
while the call runs). -/
inductive SendResult (R : Type)
  | ok (r : R)
  | parseError (e : Error)
  | ingressError (e : Error)
  | timeout
  | wouldBlock
  | writeError
  | diverge
deriving DecidableEq, Repr

/-- Inject a `check_response` outcome into the `send` outcome type. -/
def CheckResult.toSend {R : Type} : CheckResult R → SendResult R
  | .ok r => .ok r
  | .parseError e => .parseError e
  | .ingressError e => .ingressError e
  | .timeout => .timeout
  | .wouldBlock => .wouldBlock

/-- Model of `block!(self.check_response(cmd))`: re-poll until a result other
than `WouldBlock`.  A `WouldBlock` that consumed a stale frame loops
again; a `WouldBlock` on an empty queue would spin forever here, since
no new frames arrive within one call, and is reported as `diverge`.
Callers pass fuel `resQ.length + 1`, which always suffices. -/
def blockLoop {R : Type} (fuel : Nat) (cmd : AtatCmd R) (elapsed : Bool) (c : Client) :
    SendResult R × Client :=
  match fuel with
  | 0 => (.diverge, c)
  | Nat.succ fuel =>
    let rc := checkResponse cmd elapsed c
    match rc.1 with
    | .wouldBlock =>
      if c.resQ.isEmpty then (.diverge, rc.2)
      else blockLoop fuel cmd elapsed rc.2
    | r => (r.toSend, rc.2)

/-- The Idle → AwaitingResponse emission phase of `send` (client.rs
lines 72–99): best-effort `ForceState` signal, blocking cooldown wait,
per-byte transport write plus flush, transition to AwaitingResponse.
`txFail = some k` makes the write of byte index `k` fail terminally
(`k = length` fails the flush instead); the result flag is `false` on
such an `Error::Write` abort, with the bytes accepted so far recorded
and the state left unchanged. -/
def emitPhase {R : Type} (cmd : AtatCmd R) (txFail : Option Nat) (c : Client) :
    Bool × Client :=
  let c1 : Client :=
    if cmd.force_receive_state then c.comEnqueue .ForceState else c
  let c2 : Client := { c1 with events := c1.events ++ [.cooldownWait] }
  match txFail with
  | some k =>
    if k ≤ cmd.as_string.length then
      (false, { c2 with
        txBuf := c2.txBuf ++ cmd.as_string.take k,
        events := c2.events ++ (cmd.as_string.take k).map Event.txWrite })
    else
      (true, { c2 with
        txBuf := c2.txBuf ++ cmd.as_string,
        events := c2.events ++ cmd.as_string.map Event.txWrite,
        state := .AwaitingResponse })
  | none =>
    (true, { c2 with
      txBuf := c2.txBuf ++ cmd.as_string,
      events := c2.events ++ cmd.as_string.map Event.txWrite,
      state := .AwaitingResponse })

/-- The mode dispatch of `send` (client.rs lines 102–109): Blocking
loops on `check_response`; NonBlocking calls it once; Timeout first
starts the timer with `cmd.max_timeout_ms()` and then loops. -/
def dispatch {R : Type} (cmd : AtatCmd R) (elapsed : Bool) (c : Client) :
    SendResult R × Client :=
  match c.config.mode with
  | .Blocking => blockLoop (c.resQ.length + 1) cmd elapsed c
  | .NonBlocking =>
    let rc := checkResponse cmd elapsed c
    (rc.1.toSend, rc.2)
  | .Timeout =>
    let c1 : Client := c.timerStart cmd.max_timeout_ms
    blockLoop (c1.resQ.length + 1) cmd elapsed c1

/-- Model of `Client::send` (client.rs lines 71–110): run the emission phase when
Idle (skip it entirely when AwaitingResponse), then dispatch on the
configured mode. -/
def send {R : Type} (cmd : AtatCmd R) (txFail : Option Nat) (elapsed : Bool) (c : Client) :
    SendResult R × Client :=
  match c.state with
  | .Idle =>
    let ec := emitPhase cmd txFail c
    if ec.1 then dispatch cmd elapsed ec.2
    else (.writeError, ec.2)
  | .AwaitingResponse => dispatch cmd elapsed c

/-- A concrete command for instantiating the theorems: serializes to
two bytes, parses only the empty payload. -/
def cmdEx : AtatCmd Nat :=
  { as_string := [65, 84]
    max_timeout_ms := 1000
    force_receive_state := true
    parse := fun p => if p = [] then .ok 7 else .error .ParseString }

/-- A concrete URC parser for instantiating the theorems: parses only
the empty payload. -/
def urcParseEx : Payload → Except Error Nat :=
  fun p => if p = [] then .ok 1 else .error .ParseString

/-- A concrete client for instantiating the theorems. -/
def clientEx (m : Mode) (st : ClientState) (resQ : List (Except Error Payload)) : Client :=
  { txBuf := []
    resQ := resQ
    urcQ := []
    comQ := []
    comCap := 1
    state := st
    config := { mode := m, cmd_cooldown := 5 }
    events := [] }

/-- The host-visible part of a client: every field except the command
queue contents and its capacity.  (The command queue is consumed by the
ingress side, not by the host.) -/
def Client.visible (c : Client) :
    List Nat × List (Except Error Payload) × List Payload × ClientState × Config × List Event :=
  (c.txBuf, c.resQ, c.urcQ, c.state, c.config, c.events)

section Equations

variable {R : Type} (cmd : AtatCmd R) (elapsed : Bool) (c : Client)

/-- Branch of `check_response`: `Ok` slot dequeued while AwaitingResponse
(client.rs lines 124–128). -/
lemma checkResponse_ok_awaiting (p : Payload) (rest : List (Except Error Payload))
    (hq : c.resQ = .ok p :: rest) (hs : c.state = .AwaitingResponse) :
    checkResponse cmd elapsed c =
      ((match cmd.parse p with
        | .ok r => .ok r
        | .error e => .parseError e),
       { c with resQ := rest, state := .Idle,
                events := c.events ++ [.resPoll, .timerStart c.config.cmd_cooldown] }) := by
  obtain ⟨tx, rq, uq, cq, cap, st, cfg, ev⟩ := c
  simp only at hq hs
  subst hq hs
  cases hp : cmd.parse p <;>
    simp [checkResponse, Client.timerStart, hp]

/-- Branch of `check_response`: `Ok` slot dequeued while Idle — the stale
frame case (client.rs lines 129–131). -/
lemma checkResponse_ok_idle (p : Payload) (rest : List (Except Error Payload))
    (hq : c.resQ = .ok p :: rest) (hs : c.state = .Idle) :
    checkResponse cmd elapsed c =
      (.wouldBlock, { c with resQ := rest, events := c.events ++ [.resPoll] }) := by
  obtain ⟨tx, rq, uq, cq, cap, st, cfg, ev⟩ := c
  simp only at hq hs
  subst hq hs
  simp [checkResponse]

/-- Branch of `check_response`: `Err` slot dequeued (client.rs line 133). -/
lemma checkResponse_err (e : Error) (rest : List (Except Error Payload))
    (hq : c.resQ = .error e :: rest) :
    checkResponse cmd elapsed c =
      (.ingressError e, { c with resQ := rest, events := c.events ++ [.resPoll] }) := by
  obtain ⟨tx, rq, uq, cq, cap, st, cfg, ev⟩ := c
  simp only at hq
  subst hq
  simp [checkResponse]

/-- Branch of `check_response`: empty queue, Timeout mode, timer elapsed
(client.rs lines 135–145). -/
lemma checkResponse_timeout (hq : c.resQ = []) (hm : c.config.mode = .Timeout)
    (he : elapsed = true) :
    checkResponse cmd elapsed c =
      (.timeout,
       Client.comEnqueue { c with state := .Idle, events := c.events ++ [.resPoll] }
         .ClearBuffer) := by
  obtain ⟨tx, rq, uq, cq, cap, st, cfg, ev⟩ := c
  simp only at hq hm
  subst hq he
  obtain ⟨m, cd⟩ := cfg
  simp only at hm
  subst hm
  simp [checkResponse]

/-- Branch of `check_response`: empty queue and no elapsed Timeout —
would block (client.rs line 147). -/
lemma checkResponse_block (hq : c.resQ = [])
    (h : c.config.mode ≠ .Timeout ∨ elapsed = false) :
    checkResponse cmd elapsed c =
      (.wouldBlock, { c with events := c.events ++ [.resPoll] }) := by
  obtain ⟨tx, rq, uq, cq, cap, st, cfg, ev⟩ := c
  simp only at hq h
  subst hq
  obtain ⟨m, cd⟩ := cfg
  rcases h with h | h
  · simp only at h
    cases m
    · simp [checkResponse]
    · simp [checkResponse]
    · exact absurd rfl h
  · subst h
    cases m <;> simp [checkResponse]

end Equations

section Characterization

variable {R : Type} (cmd : AtatCmd R) (elapsed : Bool) (c : Client)

/-- The five mutually exclusive situations `check_response` can meet. -/
lemma client_cases :
    (∃ p rest, c.resQ = Except.ok p :: rest ∧ c.state = .AwaitingResponse) ∨
    (∃ p rest, c.resQ = Except.ok p :: rest ∧ c.state = .Idle) ∨
    (∃ e rest, c.resQ = Except.error e :: rest) ∨
    (c.resQ = [] ∧ c.config.mode = .Timeout ∧ elapsed = true) ∨
    (c.resQ = [] ∧ (c.config.mode ≠ .Timeout ∨ elapsed = false)) := by
  rcases hq : c.resQ with _ | ⟨r, rest⟩
  · by_cases hm : c.config.mode = .Timeout
    · cases elapsed
      · exact .inr (.inr (.inr (.inr ⟨rfl, .inr rfl⟩)))
      · exact .inr (.inr (.inr (.inl ⟨rfl, hm, rfl⟩)))
    · exact .inr (.inr (.inr (.inr ⟨rfl, .inl hm⟩)))
  · cases r with
    | ok p =>
      cases hs : c.state with
      | Idle => exact .inr (.inl ⟨p, rest, rfl, rfl⟩)
      | AwaitingResponse => exact .inl ⟨p, rest, rfl, rfl⟩
    | error e => exact .inr (.inr (.inl ⟨e, rest, rfl⟩))

/-- The state after `check_response` is determined by the outcome: a
parsed response, a parse error and a timeout end in Idle; an ingress
error and a would-block leave the state untouched. -/
lemma checkResponse_state :
    (checkResponse cmd elapsed c).2.state =
      (match (checkResponse cmd elapsed c).1 with
       | .ok _ => .Idle
       | .parseError _ => .Idle
       | .timeout => .Idle
       | .ingressError _ => c.state
       | .wouldBlock => c.state) := by
  rcases client_cases elapsed c with ⟨p, rest, hq, hs⟩ | ⟨p, rest, hq, hs⟩ |
    ⟨e, rest, hq⟩ | ⟨hq, hm, he⟩ | ⟨hq, h⟩
  · rw [checkResponse_ok_awaiting cmd elapsed c p rest hq hs]
    cases hp : cmd.parse p <;> simp
  · rw [checkResponse_ok_idle cmd elapsed c p rest hq hs]
  · rw [checkResponse_err cmd elapsed c e rest hq]
  · rw [checkResponse_timeout cmd elapsed c hq hm he]
    simp [Client.comEnqueue]
    split <;> rfl
  · rw [checkResponse_block cmd elapsed c hq h]

/-- One `check_response` call consumes at most the head of the response queue. -/
lemma checkResponse_resQ :
    (checkResponse cmd elapsed c).2.resQ = c.resQ.tail := by
  rcases client_cases elapsed c with ⟨p, rest, hq, hs⟩ | ⟨p, rest, hq, hs⟩ |
    ⟨e, rest, hq⟩ | ⟨hq, hm, he⟩ | ⟨hq, h⟩
  · rw [checkResponse_ok_awaiting cmd elapsed c p rest hq hs, hq]
    cases hp : cmd.parse p <;> simp
  · rw [checkResponse_ok_idle cmd elapsed c p rest hq hs, hq]
    rfl
  · rw [checkResponse_err cmd elapsed c e rest hq, hq]
    rfl
  · rw [checkResponse_timeout cmd elapsed c hq hm he, hq]
    simp [Client.comEnqueue]
    split <;> rfl
  · rw [checkResponse_block cmd elapsed c hq h, hq]
    rfl

/-- One `check_response` call leaves the transport buffer, the URC queue, the
config and the command-queue capacity alone. -/
lemma checkResponse_preserves :
    (checkResponse cmd elapsed c).2.txBuf = c.txBuf ∧
    (checkResponse cmd elapsed c).2.urcQ = c.urcQ ∧
    (checkResponse cmd elapsed c).2.config = c.config ∧
    (checkResponse cmd elapsed c).2.comCap = c.comCap := by
  rcases client_cases elapsed c with ⟨p, rest, hq, hs⟩ | ⟨p, rest, hq, hs⟩ |
    ⟨e, rest, hq⟩ | ⟨hq, hm, he⟩ | ⟨hq, h⟩
  · rw [checkResponse_ok_awaiting cmd elapsed c p rest hq hs]
    cases hp : cmd.parse p <;> simp
  · rw [checkResponse_ok_idle cmd elapsed c p rest hq hs]
    simp
  · rw [checkResponse_err cmd elapsed c e rest hq]
    simp
  · rw [checkResponse_timeout cmd elapsed c hq hm he]
    simp [Client.comEnqueue]
    split <;> simp
  · rw [checkResponse_block cmd elapsed c hq h]
    simp

/-- One `check_response` call records exactly one response-queue poll,
first in its event delta, and never writes bytes, waits for the
cooldown, or signals `ForceState`. -/
lemma checkResponse_events_delta :
    ∃ t, (checkResponse cmd elapsed c).2.events = c.events ++ Event.resPoll :: t ∧
      (∀ b, Event.txWrite b ∉ t) ∧ Event.cooldownWait ∉ t ∧
      Event.comAttempt .ForceState ∉ t ∧ Event.resPoll ∉ t := by
  rcases client_cases elapsed c with ⟨p, rest, hq, hs⟩ | ⟨p, rest, hq, hs⟩ |
    ⟨e, rest, hq⟩ | ⟨hq, hm, he⟩ | ⟨hq, h⟩
  · rw [checkResponse_ok_awaiting cmd elapsed c p rest hq hs]
    refine ⟨[.timerStart c.config.cmd_cooldown], ?_⟩
    cases hp : cmd.parse p <;> simp
  · rw [checkResponse_ok_idle cmd elapsed c p rest hq hs]
    exact ⟨[], by simp⟩
  · rw [checkResponse_err cmd elapsed c e rest hq]
    exact ⟨[], by simp⟩
  · rw [checkResponse_timeout cmd elapsed c hq hm he]
    refine ⟨[.comAttempt .ClearBuffer], ?_⟩
    simp [Client.comEnqueue]
    split <;> simp
  · rw [checkResponse_block cmd elapsed c hq h]
    exact ⟨[], by simp⟩

/-- While AwaitingResponse, a would-block answer can only come from an
empty response queue. -/
lemma checkResponse_wouldBlock_empty (hs : c.state = .AwaitingResponse)
    (hr : (checkResponse cmd elapsed c).1 = .wouldBlock) :
    c.resQ = [] := by
  rcases client_cases elapsed c with ⟨p, rest, hq, hs'⟩ | ⟨p, rest, hq, hs'⟩ |
    ⟨e, rest, hq⟩ | ⟨hq, hm, he⟩ | ⟨hq, h⟩
  · rw [checkResponse_ok_awaiting cmd elapsed c p rest hq hs'] at hr
    cases hp : cmd.parse p <;> rw [hp] at hr <;> simp at hr
  · rw [hs] at hs'
    cases hs'
  · rw [checkResponse_err cmd elapsed c e rest hq] at hr
    simp at hr
  · exact hq
  · exact hq

end Characterization

section ComEnqueueProj

variable (c : Client) (x : Command)

@[simp] lemma comEnqueue_txBuf : (Client.comEnqueue c x).txBuf = c.txBuf := by
  unfold Client.comEnqueue; split <;> rfl

@[simp] lemma comEnqueue_resQ : (Client.comEnqueue c x).resQ = c.resQ := by
  unfold Client.comEnqueue; split <;> rfl

@[simp] lemma comEnqueue_urcQ : (Client.comEnqueue c x).urcQ = c.urcQ := by
  unfold Client.comEnqueue; split <;> rfl

@[simp] lemma comEnqueue_state : (Client.comEnqueue c x).state = c.state := by
  unfold Client.comEnqueue; split <;> rfl

@[simp] lemma comEnqueue_config : (Client.comEnqueue c x).config = c.config := by
  unfold Client.comEnqueue; split <;> rfl

@[simp] lemma comEnqueue_comCap : (Client.comEnqueue c x).comCap = c.comCap := by
  unfold Client.comEnqueue; split <;> rfl

@[simp] lemma comEnqueue_events :
    (Client.comEnqueue c x).events = c.events ++ [.comAttempt x] := by
  unfold Client.comEnqueue; split <;> rfl

end ComEnqueueProj

section LoopLemmas

variable {R : Type} (cmd : AtatCmd R) (elapsed : Bool) (c : Client)

/-- Entered while AwaitingResponse, the `block!` loop is decided by its
first `check_response` poll: a would-block there means the queue is
empty, so the loop spins forever (diverges); anything else is
terminal. -/
lemma blockLoop_awaiting (fuel : Nat) (hs : c.state = .AwaitingResponse) :
    blockLoop (fuel + 1) cmd elapsed c =
      (match checkResponse cmd elapsed c with
       | (.wouldBlock, c') => (.diverge, c')
       | (r, c') => (r.toSend, c')) := by
  rcases hr : checkResponse cmd elapsed c with ⟨r, c'⟩
  cases r with
  | wouldBlock =>
    have hq : c.resQ = [] :=
      checkResponse_wouldBlock_empty cmd elapsed c hs (by rw [hr])
    simp [blockLoop, hr, hq]
  | ok v => simp [blockLoop, hr, CheckResult.toSend]
  | parseError e => simp [blockLoop, hr, CheckResult.toSend]
  | ingressError e => simp [blockLoop, hr, CheckResult.toSend]
  | timeout => simp [blockLoop, hr, CheckResult.toSend]

/-- The `block!` loop only ever appends to the event trace. -/
lemma blockLoop_events_ext (fuel : Nat) :
    ∀ c : Client, ∃ t, (blockLoop fuel cmd elapsed c).2.events = c.events ++ t := by
  induction fuel with
  | zero => exact fun c => ⟨[], by simp [blockLoop]⟩
  | succ fuel ih =>
    intro c
    rcases hr : checkResponse cmd elapsed c with ⟨r, c'⟩
    obtain ⟨t, ht, -⟩ := checkResponse_events_delta cmd elapsed c
    rw [hr] at ht
    simp only at ht
    cases r with
    | wouldBlock =>
      by_cases hq : c.resQ.isEmpty
      · exact ⟨Event.resPoll :: t, by simp [blockLoop, hr, hq, ht]⟩
      · obtain ⟨t', ht'⟩ := ih c'
        exact ⟨Event.resPoll :: t ++ t', by simp [blockLoop, hr, hq, ht', ht]⟩
    | ok v => exact ⟨Event.resPoll :: t, by simp [blockLoop, hr, ht, CheckResult.toSend]⟩
    | parseError e => exact ⟨Event.resPoll :: t, by simp [blockLoop, hr, ht, CheckResult.toSend]⟩
    | ingressError e => exact ⟨Event.resPoll :: t, by simp [blockLoop, hr, ht, CheckResult.toSend]⟩
    | timeout => exact ⟨Event.resPoll :: t, by simp [blockLoop, hr, ht, CheckResult.toSend]⟩

/-- The first event the `block!` loop records is a response-queue poll. -/
lemma blockLoop_poll_first (fuel : Nat) :
    ∃ t, (blockLoop (fuel + 1) cmd elapsed c).2.events =
      c.events ++ Event.resPoll :: t := by
  rcases hr : checkResponse cmd elapsed c with ⟨r, c'⟩
  obtain ⟨t, ht, -⟩ := checkResponse_events_delta cmd elapsed c
  rw [hr] at ht
  simp only at ht
  cases r with
  | wouldBlock =>
    by_cases hq : c.resQ.isEmpty
    · exact ⟨t, by simp [blockLoop, hr, hq, ht]⟩
    · obtain ⟨t', ht'⟩ := blockLoop_events_ext cmd elapsed fuel c'
      exact ⟨t ++ t', by simp [blockLoop, hr, hq, ht', ht]⟩
  | ok v => exact ⟨t, by simp [blockLoop, hr, ht, CheckResult.toSend]⟩
  | parseError e => exact ⟨t, by simp [blockLoop, hr, ht, CheckResult.toSend]⟩
  | ingressError e => exact ⟨t, by simp [blockLoop, hr, ht, CheckResult.toSend]⟩
  | timeout => exact ⟨t, by simp [blockLoop, hr, ht, CheckResult.toSend]⟩

end LoopLemmas

section EmitLemmas

variable {R : Type} (cmd : AtatCmd R) (txFail : Option Nat) (c : Client)

/-- Successful emission transitions to AwaitingResponse. -/
lemma emitPhase_true_state (h : (emitPhase cmd txFail c).1 = true) :
    (emitPhase cmd txFail c).2.state = .AwaitingResponse := by
  cases hf : cmd.force_receive_state <;> rcases txFail with _ | k
  · simp [emitPhase, hf]
  · by_cases hk : k ≤ cmd.as_string.length
    · simp [emitPhase, hf, hk] at h
    · simp [emitPhase, hf, hk]
  · simp [emitPhase, hf]
  · by_cases hk : k ≤ cmd.as_string.length
    · simp [emitPhase, hf, hk] at h
    · simp [emitPhase, hf, hk]

/-- A transport write failure aborts emission with the state untouched. -/
lemma emitPhase_false_state (h : (emitPhase cmd txFail c).1 = false) :
    (emitPhase cmd txFail c).2.state = c.state := by
  cases hf : cmd.force_receive_state <;> rcases txFail with _ | k
  · simp [emitPhase, hf] at h
  · by_cases hk : k ≤ cmd.as_string.length
    · simp [emitPhase, hf, hk]
    · simp [emitPhase, hf, hk] at h
  · simp [emitPhase, hf] at h
  · by_cases hk : k ≤ cmd.as_string.length
    · simp [emitPhase, hf, hk]
    · simp [emitPhase, hf, hk] at h

/-- Emission leaves the response queue, the URC queue, the config and
the command-queue capacity alone. -/
lemma emitPhase_preserves :
    (emitPhase cmd txFail c).2.resQ = c.resQ ∧
    (emitPhase cmd txFail c).2.urcQ = c.urcQ ∧
    (emitPhase cmd txFail c).2.config = c.config ∧
    (emitPhase cmd txFail c).2.comCap = c.comCap := by
  cases hf : cmd.force_receive_state <;> rcases txFail with _ | k
  · simp [emitPhase, hf]
  · by_cases hk : k ≤ cmd.as_string.length <;> simp [emitPhase, hf, hk]
  · simp [emitPhase, hf]
  · by_cases hk : k ≤ cmd.as_string.length <;> simp [emitPhase, hf, hk]

/-- Emission records no response-queue poll and no timer start. -/
lemma emitPhase_events_delta :
    ∃ t, (emitPhase cmd txFail c).2.events = c.events ++ t ∧
      Event.resPoll ∉ t ∧ (∀ d, Event.timerStart d ∉ t) := by
  cases hf : cmd.force_receive_state <;> rcases txFail with _ | k
  · exact ⟨.cooldownWait :: cmd.as_string.map Event.txWrite,
      by simp [emitPhase, hf], by simp, by simp⟩
  · by_cases hk : k ≤ cmd.as_string.length
    · refine ⟨.cooldownWait :: (cmd.as_string.take k).map Event.txWrite,
        by simp [emitPhase, hf, hk], ?_, ?_⟩
      · intro hmem
        simp only [List.map_take, List.mem_cons] at hmem
        rcases hmem with h | h
        · cases h
        · exact absurd (List.mem_of_mem_take h) (by simp)
      · intro d hmem
        simp only [List.map_take, List.mem_cons] at hmem
        rcases hmem with h | h
        · cases h
        · exact absurd (List.mem_of_mem_take h) (by simp)
    · exact ⟨.cooldownWait :: cmd.as_string.map Event.txWrite,
        by simp [emitPhase, hf, hk], by simp, by simp⟩
  · exact ⟨.comAttempt .ForceState :: .cooldownWait :: cmd.as_string.map Event.txWrite,
      by simp [emitPhase, hf], by simp, by simp⟩
  · by_cases hk : k ≤ cmd.as_string.length
    · refine ⟨.comAttempt .ForceState :: .cooldownWait ::
          (cmd.as_string.take k).map Event.txWrite,
        by simp [emitPhase, hf, hk], ?_, ?_⟩
      · intro hmem
        simp only [List.map_take, List.mem_cons] at hmem
        rcases hmem with h | h | h
        · cases h
        · cases h
        · exact absurd (List.mem_of_mem_take h) (by simp)
      · intro d hmem
        simp only [List.map_take, List.mem_cons] at hmem
        rcases hmem with h | h | h
        · cases h
        · cases h
        · exact absurd (List.mem_of_mem_take h) (by simp)
    · exact ⟨.comAttempt .ForceState :: .cooldownWait :: cmd.as_string.map Event.txWrite,
        by simp [emitPhase, hf, hk], by simp, by simp⟩

/-- With no transport failure, emission appends exactly the serialized
command to the transport buffer — whatever the command queue holds. -/
lemma emitPhase_txBuf_ok :
    (emitPhase cmd none c).1 = true ∧
    (emitPhase cmd none c).2.txBuf = c.txBuf ++ cmd.as_string := by
  cases hf : cmd.force_receive_state <;> simp [emitPhase, hf]

end EmitLemmas

section SendLemmas

variable {R : Type} (cmd : AtatCmd R) (txFail : Option Nat) (elapsed : Bool) (c : Client)

/-- Calling `send` while AwaitingResponse is exactly the mode dispatch: the
emission phase is skipped (client.rs line 72's guard fails). -/
lemma send_awaiting (hs : c.state = .AwaitingResponse) :
    send cmd txFail elapsed c = dispatch cmd elapsed c := by
  obtain ⟨tx, rq, uq, cq, cap, st, cfg, ev⟩ := c
  simp only at hs
  subst hs
  rfl

/-- Calling `send` while Idle runs the emission phase, then dispatches on
success and aborts with `Error::Write` on failure. -/
lemma send_idle (hs : c.state = .Idle) :
    send cmd txFail elapsed c =
      (if (emitPhase cmd txFail c).1
       then dispatch cmd elapsed (emitPhase cmd txFail c).2
       else (.writeError, (emitPhase cmd txFail c).2)) := by
  obtain ⟨tx, rq, uq, cq, cap, st, cfg, ev⟩ := c
  simp only at hs
  subst hs
  rfl

/-- Entered while AwaitingResponse, the dispatch ends Idle exactly on a
parsed response, a parse error or a timeout; an ingress error, a
would-block and a diverging poll loop leave it AwaitingResponse. -/
lemma dispatch_state_awaiting (hs : c.state = .AwaitingResponse) :
    (dispatch cmd elapsed c).2.state =
      (match (dispatch cmd elapsed c).1 with
       | .ok _ => .Idle
       | .parseError _ => .Idle
       | .timeout => .Idle
       | _ => .AwaitingResponse) := by
  have hst := checkResponse_state cmd elapsed c
  cases hm : c.config.mode with
  | NonBlocking =>
    rcases hr : checkResponse cmd elapsed c with ⟨r, c'⟩
    rw [hr] at hst
    simp only at hst
    simp only [dispatch, hm, hr]
    cases r <;> simp_all [CheckResult.toSend]
  | Blocking =>
    simp only [dispatch, hm]
    rw [blockLoop_awaiting cmd elapsed c c.resQ.length hs]
    rcases hr : checkResponse cmd elapsed c with ⟨r, c'⟩
    rw [hr] at hst
    simp only at hst
    cases r <;> simp_all [CheckResult.toSend]
  | Timeout =>
    simp only [dispatch, hm]
    have hs1 : (c.timerStart cmd.max_timeout_ms).state = .AwaitingResponse := hs
    have hq1 : (c.timerStart cmd.max_timeout_ms).resQ = c.resQ := rfl
    rw [show (c.timerStart cmd.max_timeout_ms).resQ.length + 1 = c.resQ.length + 1 by rw [hq1]]
    rw [blockLoop_awaiting cmd elapsed _ c.resQ.length hs1]
    have hst1 := checkResponse_state cmd elapsed (c.timerStart cmd.max_timeout_ms)
    rcases hr : checkResponse cmd elapsed (c.timerStart cmd.max_timeout_ms) with ⟨r, c'⟩
    rw [hr] at hst1
    simp only at hst1
    rw [show (c.timerStart cmd.max_timeout_ms).state = .AwaitingResponse from hs1] at hst1
    cases r <;> simp_all [CheckResult.toSend]

end SendLemmas

section NoWriteError

variable {R : Type} (cmd : AtatCmd R) (elapsed : Bool)

/-- No `check_response` outcome lifts to a write error. -/
lemma toSend_ne_writeError (r : CheckResult R) : r.toSend ≠ .writeError := by
  cases r <;> simp [CheckResult.toSend]

/-- The `block!` loop never produces a write error. -/
lemma blockLoop_ne_writeError (fuel : Nat) :
    ∀ c : Client, (blockLoop fuel cmd elapsed c).1 ≠ .writeError := by
  induction fuel with
  | zero =>
    intro c
    simp [blockLoop]
  | succ f ih =>
    intro c
    rcases hr : checkResponse cmd elapsed c with ⟨r, c'⟩
    cases r with
    | wouldBlock =>
      by_cases hq : c.resQ.isEmpty <;> simp [blockLoop, hr, hq]
      exact ih c'
    | ok v => simp [blockLoop, hr, CheckResult.toSend]
    | parseError e => simp [blockLoop, hr, CheckResult.toSend]
    | ingressError e => simp [blockLoop, hr, CheckResult.toSend]
    | timeout => simp [blockLoop, hr, CheckResult.toSend]

/-- The mode dispatch never produces a write error. -/
lemma dispatch_ne_writeError (c : Client) :
    (dispatch cmd elapsed c).1 ≠ .writeError := by
  cases hm : c.config.mode <;> simp only [dispatch, hm]
  · exact blockLoop_ne_writeError cmd elapsed _ c
  · exact toSend_ne_writeError _
  · exact blockLoop_ne_writeError cmd elapsed _ _

end NoWriteError

section DispatchEffects

variable {R : Type} (cmd : AtatCmd R) (elapsed : Bool)

/-- The `block!` loop never touches the transport buffer. -/
lemma blockLoop_txBuf (fuel : Nat) :
    ∀ c : Client, (blockLoop fuel cmd elapsed c).2.txBuf = c.txBuf := by
  induction fuel with
  | zero =>
    intro c
    simp [blockLoop]
  | succ f ih =>
    intro c
    rcases hr : checkResponse cmd elapsed c with ⟨r, c'⟩
    have hp := (checkResponse_preserves cmd elapsed c).1
    rw [hr] at hp
    simp only at hp
    cases r with
    | wouldBlock =>
      by_cases hq : c.resQ.isEmpty <;> simp [blockLoop, hr, hq, hp]
      rw [ih c', hp]
    | ok v => simp [blockLoop, hr, hp, CheckResult.toSend]
    | parseError e => simp [blockLoop, hr, hp, CheckResult.toSend]
    | ingressError e => simp [blockLoop, hr, hp, CheckResult.toSend]
    | timeout => simp [blockLoop, hr, hp, CheckResult.toSend]

/-- The `block!` loop records no transport write, no cooldown wait and
no `ForceState` signal. -/
lemma blockLoop_events_safe (fuel : Nat) :
    ∀ c : Client, ∃ t, (blockLoop fuel cmd elapsed c).2.events = c.events ++ t ∧
      (∀ b, Event.txWrite b ∉ t) ∧ Event.cooldownWait ∉ t ∧
      Event.comAttempt .ForceState ∉ t := by
  induction fuel with
  | zero =>
    intro c
    exact ⟨[], by simp [blockLoop], by simp, by simp, by simp⟩
  | succ f ih =>
    intro c
    rcases hr : checkResponse cmd elapsed c with ⟨r, c'⟩
    obtain ⟨t, ht, ht1, ht2, ht3, -⟩ := checkResponse_events_delta cmd elapsed c
    rw [hr] at ht
    simp only at ht
    cases r with
    | wouldBlock =>
      by_cases hq : c.resQ.isEmpty
      · refine ⟨Event.resPoll :: t, by simp [blockLoop, hr, hq, ht], ?_, ?_, ?_⟩
        · intro b
          simp only [List.mem_cons]
          push_neg
          exact ⟨by simp, ht1 b⟩
        · simp only [List.mem_cons]
          push_neg
          exact ⟨by simp, ht2⟩
        · simp only [List.mem_cons]
          push_neg
          exact ⟨by simp, ht3⟩
      · obtain ⟨t', ht', h1', h2', h3'⟩ := ih c'
        refine ⟨Event.resPoll :: t ++ t',
          by simp [blockLoop, hr, hq, ht', ht], ?_, ?_, ?_⟩
        · intro b
          simp only [List.cons_append, List.mem_cons, List.mem_append]
          push_neg
          exact ⟨by simp, ht1 b, h1' b⟩
        · simp only [List.cons_append, List.mem_cons, List.mem_append]
          push_neg
          exact ⟨by simp, ht2, h2'⟩
        · simp only [List.cons_append, List.mem_cons, List.mem_append]
          push_neg
          exact ⟨by simp, ht3, h3'⟩
    | ok v =>
      refine ⟨Event.resPoll :: t, by simp [blockLoop, hr, ht, CheckResult.toSend],
        ?_, ?_, ?_⟩
      · intro b
        simp only [List.mem_cons]
        push_neg
        exact ⟨by simp, ht1 b⟩
      · simp only [List.mem_cons]
        push_neg
        exact ⟨by simp, ht2⟩
      · simp only [List.mem_cons]
        push_neg
        exact ⟨by simp, ht3⟩
    | parseError e =>
      refine ⟨Event.resPoll :: t, by simp [blockLoop, hr, ht, CheckResult.toSend],
        ?_, ?_, ?_⟩
      · intro b
        simp only [List.mem_cons]
        push_neg
        exact ⟨by simp, ht1 b⟩
      · simp only [List.mem_cons]
        push_neg
        exact ⟨by simp, ht2⟩
      · simp only [List.mem_cons]
        push_neg
        exact ⟨by simp, ht3⟩
    | ingressError e =>
      refine ⟨Event.resPoll :: t, by simp [blockLoop, hr, ht, CheckResult.toSend],
        ?_, ?_, ?_⟩
      · intro b
        simp only [List.mem_cons]
        push_neg
        exact ⟨by simp, ht1 b⟩
      · simp only [List.mem_cons]
        push_neg
        exact ⟨by simp, ht2⟩
      · simp only [List.mem_cons]
        push_neg
        exact ⟨by simp, ht3⟩
    | timeout =>
      refine ⟨Event.resPoll :: t, by simp [blockLoop, hr, ht, CheckResult.toSend],
        ?_, ?_, ?_⟩
      · intro b
        simp only [List.mem_cons]
        push_neg
        exact ⟨by simp, ht1 b⟩
      · simp only [List.mem_cons]
        push_neg
        exact ⟨by simp, ht2⟩
      · simp only [List.mem_cons]
        push_neg
        exact ⟨by simp, ht3⟩

/-- The mode dispatch leaves the transport buffer alone and records no
transport write, no cooldown wait and no `ForceState` signal. -/
lemma dispatch_no_emission_effects (c : Client) :
    (dispatch cmd elapsed c).2.txBuf = c.txBuf ∧
    ∃ t, (dispatch cmd elapsed c).2.events = c.events ++ t ∧
      (∀ b, Event.txWrite b ∉ t) ∧ Event.cooldownWait ∉ t ∧
      Event.comAttempt .ForceState ∉ t := by
  cases hm : c.config.mode <;> simp only [dispatch, hm]
  · exact ⟨blockLoop_txBuf cmd elapsed _ c, blockLoop_events_safe cmd elapsed _ c⟩
  · rcases hr : checkResponse cmd elapsed c with ⟨r, c'⟩
    obtain ⟨t, ht, h1, h2, h3, -⟩ := checkResponse_events_delta cmd elapsed c
    have hp := (checkResponse_preserves cmd elapsed c).1
    rw [hr] at ht hp
    simp only at ht hp
    refine ⟨hp, Event.resPoll :: t, by simp [ht], ?_, ?_, ?_⟩
    · intro b
      simp only [List.mem_cons]
      push_neg
      exact ⟨by simp, h1 b⟩
    · simp only [List.mem_cons]
      push_neg
      exact ⟨by simp, h2⟩
    · simp only [List.mem_cons]
      push_neg
      exact ⟨by simp, h3⟩
  · have htx := blockLoop_txBuf cmd elapsed
      ((c.timerStart cmd.max_timeout_ms).resQ.length + 1) (c.timerStart cmd.max_timeout_ms)
    obtain ⟨t, ht, h1, h2, h3⟩ := blockLoop_events_safe cmd elapsed
      ((c.timerStart cmd.max_timeout_ms).resQ.length + 1) (c.timerStart cmd.max_timeout_ms)
    refine ⟨by simpa [Client.timerStart] using htx,
      Event.timerStart cmd.max_timeout_ms :: t,
      by rw [ht]; simp [Client.timerStart], ?_, ?_, ?_⟩
    · intro b
      simp only [List.mem_cons]
      push_neg
      exact ⟨by simp, h1 b⟩
    · simp only [List.mem_cons]
      push_neg
      exact ⟨by simp, h2⟩
    · simp only [List.mem_cons]
      push_neg
      exact ⟨by simp, h3⟩

end DispatchEffects

section VisibleCongr

variable {R : Type} (cmd : AtatCmd R) (txFail : Option Nat) (elapsed : Bool)

/-- Unpack equality of the host-visible parts of two clients. -/
lemma visible_fields {c₁ c₂ : Client} (h : c₁.visible = c₂.visible) :
    c₁.txBuf = c₂.txBuf ∧ c₁.resQ = c₂.resQ ∧ c₁.urcQ = c₂.urcQ ∧
    c₁.state = c₂.state ∧ c₁.config = c₂.config ∧ c₁.events = c₂.events := by
  simpa [Client.visible, Prod.ext_iff] using h

/-- The function `check_response` reads and writes only the host-visible part of the
client: the command queue (and whether it is full) never influences
the outcome or any visible field. -/
lemma checkResponse_congr {c₁ c₂ : Client} (h : c₁.visible = c₂.visible) :
    (checkResponse cmd elapsed c₁).1 = (checkResponse cmd elapsed c₂).1 ∧
    (checkResponse cmd elapsed c₁).2.visible =
      (checkResponse cmd elapsed c₂).2.visible := by
  obtain ⟨htx, hrq, huq, hst, hcf, hev⟩ := visible_fields h
  rcases client_cases elapsed c₁ with ⟨p, rest, hq, hs⟩ | ⟨p, rest, hq, hs⟩ |
    ⟨e, rest, hq⟩ | ⟨hq, hm, he⟩ | ⟨hq, hOr⟩
  · have hq₂ : c₂.resQ = .ok p :: rest := by rw [← hrq]; exact hq
    have hs₂ : c₂.state = .AwaitingResponse := by rw [← hst]; exact hs
    rw [checkResponse_ok_awaiting cmd elapsed c₁ p rest hq hs,
      checkResponse_ok_awaiting cmd elapsed c₂ p rest hq₂ hs₂]
    cases hp : cmd.parse p <;>
      simp [Client.visible, htx, huq, hcf, hev]
  · have hq₂ : c₂.resQ = .ok p :: rest := by rw [← hrq]; exact hq
    have hs₂ : c₂.state = .Idle := by rw [← hst]; exact hs
    rw [checkResponse_ok_idle cmd elapsed c₁ p rest hq hs,
      checkResponse_ok_idle cmd elapsed c₂ p rest hq₂ hs₂]
    simp [Client.visible, htx, huq, hst, hcf, hev]
  · have hq₂ : c₂.resQ = .error e :: rest := by rw [← hrq]; exact hq
    rw [checkResponse_err cmd elapsed c₁ e rest hq,
      checkResponse_err cmd elapsed c₂ e rest hq₂]
    simp [Client.visible, htx, huq, hst, hcf, hev]
  · have hq₂ : c₂.resQ = [] := by rw [← hrq]; exact hq
    have hm₂ : c₂.config.mode = .Timeout := by rw [← hcf]; exact hm
    rw [checkResponse_timeout cmd elapsed c₁ hq hm he,
      checkResponse_timeout cmd elapsed c₂ hq₂ hm₂ he]
    simp [Client.visible, htx, hrq, huq, hst, hcf, hev]
  · have hq₂ : c₂.resQ = [] := by rw [← hrq]; exact hq
    have hOr₂ : c₂.config.mode ≠ .Timeout ∨ elapsed = false := by
      rw [← hcf]; exact hOr
    rw [checkResponse_block cmd elapsed c₁ hq hOr,
      checkResponse_block cmd elapsed c₂ hq₂ hOr₂]
    simp [Client.visible, htx, hrq, huq, hst, hcf, hev]

/-- The `block!` loop is likewise insensitive to the command queue. -/
lemma blockLoop_congr (fuel : Nat) :
    ∀ c₁ c₂ : Client, c₁.visible = c₂.visible →
      (blockLoop fuel cmd elapsed c₁).1 = (blockLoop fuel cmd elapsed c₂).1 ∧
      (blockLoop fuel cmd elapsed c₁).2.visible =
        (blockLoop fuel cmd elapsed c₂).2.visible := by
  induction fuel with
  | zero =>
    intro c₁ c₂ h
    exact ⟨rfl, by simpa [blockLoop] using h⟩
  | succ f ih =>
    intro c₁ c₂ h
    have hrq := (visible_fields h).2.1
    obtain ⟨hr1, hv⟩ := checkResponse_congr cmd elapsed h
    rcases hA : checkResponse cmd elapsed c₁ with ⟨r₁, c₁'⟩
    rcases hB : checkResponse cmd elapsed c₂ with ⟨r₂, c₂'⟩
    rw [hA, hB] at hr1 hv
    simp only at hr1 hv
    subst hr1
    cases r₁ with
    | wouldBlock =>
      by_cases hq : c₁.resQ.isEmpty
      · have hq₂ : c₂.resQ.isEmpty := by rw [← hrq]; exact hq
        simp only [blockLoop, hA, hB, hq, hq₂, if_true]
        exact ⟨trivial, hv⟩
      · have hq₂ : ¬c₂.resQ.isEmpty = true := by rw [← hrq]; exact hq
        simp only [blockLoop, hA, hB]
        rw [if_neg hq, if_neg hq₂]
        exact ih c₁' c₂' hv
    | ok v =>
      simp only [blockLoop, hA, hB]
      exact ⟨trivial, hv⟩
    | parseError e =>
      simp only [blockLoop, hA, hB]
      exact ⟨trivial, hv⟩
    | ingressError e =>
      simp only [blockLoop, hA, hB]
      exact ⟨trivial, hv⟩
    | timeout =>
      simp only [blockLoop, hA, hB]
      exact ⟨trivial, hv⟩

/-- The mode dispatch is insensitive to the command queue. -/
lemma dispatch_congr {c₁ c₂ : Client} (h : c₁.visible = c₂.visible) :
    (dispatch cmd elapsed c₁).1 = (dispatch cmd elapsed c₂).1 ∧
    (dispatch cmd elapsed c₁).2.visible = (dispatch cmd elapsed c₂).2.visible := by
  obtain ⟨htx, hrq, huq, hst, hcf, hev⟩ := visible_fields h
  have hm₂ : c₂.config.mode = c₁.config.mode := by rw [hcf]
  cases hm : c₁.config.mode
  · simp only [dispatch, hm, hm₂.trans hm]
    have hlen : c₁.resQ.length = c₂.resQ.length := by rw [hrq]
    rw [hlen]
    exact blockLoop_congr cmd elapsed _ c₁ c₂ h
  · simp only [dispatch, hm, hm₂.trans hm]
    obtain ⟨h1, h2⟩ := checkResponse_congr cmd elapsed h
    exact ⟨by rw [h1], h2⟩
  · simp only [dispatch, hm, hm₂.trans hm]
    have hvt : (c₁.timerStart cmd.max_timeout_ms).visible =
        (c₂.timerStart cmd.max_timeout_ms).visible := by
      simp [Client.visible, Client.timerStart, htx, hrq, huq, hst, hcf, hev]
    have hlen : (c₁.timerStart cmd.max_timeout_ms).resQ.length =
        (c₂.timerStart cmd.max_timeout_ms).resQ.length := by
      simp [Client.timerStart, hrq]
    rw [hlen]
    exact blockLoop_congr cmd elapsed _ _ _ hvt

/-- Emission is insensitive to the command queue: a failed `ForceState`
enqueue changes no visible field and emission proceeds identically. -/
lemma emitPhase_congr {c₁ c₂ : Client} (h : c₁.visible = c₂.visible) :
    (emitPhase cmd txFail c₁).1 = (emitPhase cmd txFail c₂).1 ∧
    (emitPhase cmd txFail c₁).2.visible = (emitPhase cmd txFail c₂).2.visible := by
  obtain ⟨htx, hrq, huq, hst, hcf, hev⟩ := visible_fields h
  cases hf : cmd.force_receive_state <;> rcases txFail with _ | k
  · simp [emitPhase, hf, Client.visible, htx, hrq, huq, hst, hcf, hev]
  · by_cases hk : k ≤ cmd.as_string.length <;>
      simp [emitPhase, hf, hk, Client.visible, htx, hrq, huq, hst, hcf, hev]
  · simp [emitPhase, hf, Client.visible, htx, hrq, huq, hst, hcf, hev]
  · by_cases hk : k ≤ cmd.as_string.length <;>
      simp [emitPhase, hf, hk, Client.visible, htx, hrq, huq, hst, hcf, hev]

end VisibleCongr

/-- C1 as stated fails on the code: on the ingress-`Err` path the state
is not reset — here `send` surfaces a terminal ingress error and the
client is left AwaitingResponse, not Idle. -/
theorem C1_counterexample :
    (send cmdEx none false (clientEx .Blocking .Idle [.error .Read])).1
        = .ingressError .Read ∧
    (send cmdEx none false (clientEx .Blocking .Idle [.error .Read])).2.state
        ≠ .Idle := by
  decide

/-- C1 amended: after `check_response` and after `send`, the state is
Idle on a parsed response, a response-parse error and a Timeout — but
NOT on the ingress-error path, which leaves the state untouched (so a
terminal ingress error out of `send` leaves the client
AwaitingResponse).  Non-terminal outcomes keep AwaitingResponse, and an
emission write error keeps the original state. -/
theorem C1_amended_terminal_idle {R S : Type} (cmd : AtatCmd R) (cmd2 : AtatCmd S)
    (elapsed e2 : Bool) (txFail : Option Nat) (c c2 : Client) :
    ((checkResponse cmd elapsed c).2.state =
      (match (checkResponse cmd elapsed c).1 with
       | .ok _ => .Idle
       | .parseError _ => .Idle
       | .timeout => .Idle
       | .ingressError _ => c.state
       | .wouldBlock => c.state)) ∧
    ((send cmd2 txFail e2 c2).2.state =
      (match (send cmd2 txFail e2 c2).1 with
       | .ok _ => .Idle
       | .parseError _ => .Idle
       | .timeout => .Idle
       | .writeError => c2.state
       | _ => .AwaitingResponse)) := by
  refine ⟨checkResponse_state cmd elapsed c, ?_⟩
  cases hs : c2.state with
  | AwaitingResponse =>
    rw [send_awaiting cmd2 txFail e2 c2 hs]
    have hd := dispatch_state_awaiting cmd2 e2 c2 hs
    rw [hd]
    cases hr : (dispatch cmd2 e2 c2).1 <;> simp [hs]
  | Idle =>
    rw [send_idle cmd2 txFail e2 c2 hs]
    by_cases he : (emitPhase cmd2 txFail c2).1 = true
    · simp only [he, if_true]
      have hs' : (emitPhase cmd2 txFail c2).2.state = .AwaitingResponse :=
        emitPhase_true_state cmd2 txFail c2 he
      have hd := dispatch_state_awaiting cmd2 e2 _ hs'
      rw [hd]
      have hne := dispatch_ne_writeError cmd2 e2 (emitPhase cmd2 txFail c2).2
      cases hr : (dispatch cmd2 e2 (emitPhase cmd2 txFail c2).2).1 <;> simp_all
    · simp only [Bool.not_eq_true] at he
      simp only [he, Bool.false_eq_true, if_false]
      have := emitPhase_false_state cmd2 txFail c2 he
      simp [this, hs]

/-- C3: if `check_response` dequeues an `Ok(payload)` slot while the
client state is Idle, it returns would-block, the state and the
cooldown timer are untouched, and the payload is neither parsed nor
delivered — the stale frame is simply dropped from the queue, the only
recorded action being the dequeue attempt itself (note the result does
not mention `cmd.parse`). -/
theorem C3_stale_ok_discarded {R : Type} (cmd : AtatCmd R) (elapsed : Bool)
    (c : Client) (p : Payload) (rest : List (Except Error Payload))
    (hq : c.resQ = .ok p :: rest) (hs : c.state = .Idle) :
    checkResponse cmd elapsed c =
      (.wouldBlock, { c with resQ := rest, events := c.events ++ [.resPoll] }) :=
  checkResponse_ok_idle cmd elapsed c p rest hq hs

/-- Witness for C3 at a concrete stale frame. -/
theorem C3_stale_ok_discarded_witness :
    checkResponse cmdEx false (clientEx .Blocking .Idle [.ok [9]]) =
      (.wouldBlock,
       { clientEx .Blocking .Idle [.ok [9]] with resQ := [], events := [.resPoll] }) := by
  have h := C3_stale_ok_discarded cmdEx false (clientEx .Blocking .Idle [.ok [9]])
    [9] [] rfl rfl
  simpa [clientEx] using h

/-- C7: dequeuing an `Ok(payload)` slot while AwaitingResponse arms the
cooldown timer with `cmd_cooldown`, transitions the state to Idle and
invokes `cmd.parse(payload)`; the parsed value is returned on success
and the parse error as-is on failure, with exactly one queue poll in
either case (no re-poll). -/
theorem C7_ok_awaiting_parse {R : Type} (cmd : AtatCmd R) (elapsed : Bool)
    (c : Client) (p : Payload) (rest : List (Except Error Payload))
    (hq : c.resQ = .ok p :: rest) (hs : c.state = .AwaitingResponse) :
    checkResponse cmd elapsed c =
      ((match cmd.parse p with
        | .ok r => .ok r
        | .error e => .parseError e),
       { c with resQ := rest, state := .Idle,
                events := c.events ++ [.resPoll, .timerStart c.config.cmd_cooldown] }) :=
  checkResponse_ok_awaiting cmd elapsed c p rest hq hs

/-- Witness for C7 at a concrete frame that parses successfully. -/
theorem C7_ok_awaiting_parse_witness :
    checkResponse cmdEx false (clientEx .NonBlocking .AwaitingResponse [.ok []]) =
      (.ok 7,
       { clientEx .NonBlocking .AwaitingResponse [.ok []] with
           resQ := [], state := .Idle, events := [.resPoll, .timerStart 5] }) := by
  have h := C7_ok_awaiting_parse cmdEx false
    (clientEx .NonBlocking .AwaitingResponse [.ok []]) [] [] rfl rfl
  simpa [clientEx, cmdEx] using h

/-- C8: `check_urc` never modifies the client state; with no ready item
it returns none with no side effect; otherwise it dequeues exactly one
item, arms the cooldown timer with `cmd_cooldown` regardless of parse
success, and returns the parsed variant (none on a parse failure). -/
theorem C8_check_urc_no_state_change {U : Type} (parse : Payload → Except Error U)
    (c : Client) :
    (checkUrc parse c).2.state = c.state ∧
    (c.urcQ = [] → checkUrc parse c = (none, c)) ∧
    (∀ item rest, c.urcQ = item :: rest →
      checkUrc parse c =
        ((parse item).toOption,
         { c with urcQ := rest,
                  events := c.events ++ [.timerStart c.config.cmd_cooldown] })) := by
  refine ⟨?_, ?_, ?_⟩
  · rcases hq : c.urcQ with _ | ⟨item, rest⟩ <;>
      simp [checkUrc, hq, Client.timerStart]
  · intro hq
    simp [checkUrc, hq]
  · intro item rest hq
    simp [checkUrc, hq, Client.timerStart]

/-- Witness for C8: a ready URC is dequeued, arms the timer and is
parsed; the state stays Idle. -/
theorem C8_check_urc_no_state_change_witness :
    checkUrc urcParseEx { clientEx .NonBlocking .Idle [] with urcQ := [[]] } =
      (some 1,
       { clientEx .NonBlocking .Idle [] with urcQ := [], events := [.timerStart 5] }) := by
  have h := (C8_check_urc_no_state_change urcParseEx
    { clientEx .NonBlocking .Idle [] with urcQ := [[]] }).2.2 [] [] rfl
  simpa [clientEx, urcParseEx] using h

/-- C2 as stated fails on the code: here `check_response` returns a
terminal response-parse error, yet the call has re-armed the cooldown
timer (`timer.start(cmd_cooldown)` runs before `cmd.parse`). -/
theorem C2_counterexample :
    (checkResponse cmdEx false (clientEx .Blocking .AwaitingResponse [.ok [1]])).1
        = .parseError .ParseString ∧
    (clientEx .Blocking .AwaitingResponse [.ok [1]]).timerStarts = [] ∧
    (checkResponse cmdEx false
        (clientEx .Blocking .AwaitingResponse [.ok [1]])).2.timerStarts = [5] :=
  ⟨rfl, rfl, rfl⟩

/-- C2 amended: one `check_response` call invokes
`timer.start(cmd_cooldown)` exactly when it dequeues an `Ok` frame
while AwaitingResponse — regardless of whether the parse then succeeds
or fails; the ingress-error, stale-frame, timeout and would-block paths
never re-arm the cooldown. -/
theorem C2_amended_cooldown_rearm {R : Type} (cmd : AtatCmd R) (elapsed : Bool)
    (c : Client) :
    (checkResponse cmd elapsed c).2.timerStarts =
      c.timerStarts ++
        (match c.resQ, c.state with
         | .ok _ :: _, .AwaitingResponse => [c.config.cmd_cooldown]
         | _, _ => []) := by
  rcases client_cases elapsed c with ⟨p, rest, hq, hs⟩ | ⟨p, rest, hq, hs⟩ |
    ⟨e, rest, hq⟩ | ⟨hq, hm, he⟩ | ⟨hq, h⟩
  · rw [checkResponse_ok_awaiting cmd elapsed c p rest hq hs, hq, hs]
    cases hp : cmd.parse p <;>
      simp [Client.timerStarts, List.filterMap_append]
  · rw [checkResponse_ok_idle cmd elapsed c p rest hq hs, hq, hs]
    simp [Client.timerStarts, List.filterMap_append]
  · rw [checkResponse_err cmd elapsed c e rest hq, hq]
    simp [Client.timerStarts, List.filterMap_append]
  · rw [checkResponse_timeout cmd elapsed c hq hm he, hq]
    simp [Client.timerStarts, List.filterMap_append]
  · rw [checkResponse_block cmd elapsed c hq h, hq]
    simp [Client.timerStarts, List.filterMap_append]

/-- C4: calling `send` while the state is AwaitingResponse skips the
entire emission phase — `send` is exactly the mode-dependent dispatch:
no byte reaches the transport, no `ForceState` enqueue is attempted
and the cooldown timer is not waited on; so a retry of `send` after a
would-block does not re-emit the command bytes. -/
theorem C4_retry_skips_emission {R : Type} (cmd : AtatCmd R) (txFail : Option Nat)
    (elapsed : Bool) (c : Client) (hs : c.state = .AwaitingResponse) :
    send cmd txFail elapsed c = dispatch cmd elapsed c ∧
    (send cmd txFail elapsed c).2.txBuf = c.txBuf ∧
    (send cmd txFail elapsed c).2.cooldownWaits = c.cooldownWaits ∧
    (send cmd txFail elapsed c).2.events.count (Event.comAttempt .ForceState) =
      c.events.count (Event.comAttempt .ForceState) := by
  have hse := send_awaiting cmd txFail elapsed c hs
  obtain ⟨htx, t, ht, h1, h2, h3⟩ := dispatch_no_emission_effects cmd elapsed c
  refine ⟨hse, by rw [hse]; exact htx, ?_, ?_⟩
  · rw [hse]
    simp [Client.cooldownWaits, ht, List.count_append, List.count_eq_zero.mpr h2]
  · rw [hse, ht]
    simp [List.count_append, List.count_eq_zero.mpr h3]

/-- Witness for C4: a NonBlocking retry with an empty queue emits
nothing. -/
theorem C4_retry_skips_emission_witness :
    send cmdEx none false (clientEx .NonBlocking .AwaitingResponse []) =
      dispatch cmdEx false (clientEx .NonBlocking .AwaitingResponse []) ∧
    (send cmdEx none false (clientEx .NonBlocking .AwaitingResponse [])).2.txBuf =
      (clientEx .NonBlocking .AwaitingResponse []).txBuf ∧
    (send cmdEx none false (clientEx .NonBlocking .AwaitingResponse [])).2.cooldownWaits =
      (clientEx .NonBlocking .AwaitingResponse []).cooldownWaits ∧
    (send cmdEx none false (clientEx .NonBlocking .AwaitingResponse
        [])).2.events.count (Event.comAttempt .ForceState) =
      (clientEx .NonBlocking .AwaitingResponse []).events.count
        (Event.comAttempt .ForceState) :=
  C4_retry_skips_emission cmdEx none false (clientEx .NonBlocking .AwaitingResponse []) rfl

/-- C6: `check_response` makes exactly one dequeue attempt per call, in
every mode; and in NonBlocking mode `send` makes exactly one dequeue
attempt after emission — if no frame is available it returns
would-block with the state still AwaitingResponse. -/
theorem C6_nonblocking_single_poll {R : Type} (cmd : AtatCmd R) (txFail : Option Nat)
    (elapsed : Bool) (c : Client) :
    ((checkResponse cmd elapsed c).2.resPolls = c.resPolls + 1) ∧
    (c.config.mode = .NonBlocking →
      (c.state = .AwaitingResponse ∨ (c.state = .Idle ∧ txFail = none)) →
      ((send cmd txFail elapsed c).2.resPolls = c.resPolls + 1 ∧
       (c.resQ = [] →
         (send cmd txFail elapsed c).1 = .wouldBlock ∧
         (send cmd txFail elapsed c).2.state = .AwaitingResponse))) := by
  have hpoll : ∀ c' : Client, (checkResponse cmd elapsed c').2.resPolls = c'.resPolls + 1 := by
    intro c'
    obtain ⟨t, ht, -, -, -, h5⟩ := checkResponse_events_delta cmd elapsed c'
    simp [Client.resPolls, ht, List.count_append, List.count_cons,
      List.count_eq_zero.mpr h5]
  refine ⟨hpoll c, ?_⟩
  intro hm hcase
  rcases hcase with hs | ⟨hs, htf⟩
  · rw [send_awaiting cmd txFail elapsed c hs]
    constructor
    · simp only [dispatch, hm]
      have h1 := hpoll c
      rcases hr : checkResponse cmd elapsed c with ⟨r, c'⟩
      rw [hr] at h1
      simpa using h1
    · intro hq
      have hcr := checkResponse_block cmd elapsed c hq (Or.inl (by rw [hm]; simp))
      simp only [dispatch, hm, hcr]
      exact ⟨by simp [CheckResult.toSend], by simp [hs]⟩
  · subst htf
    have hse := send_idle cmd none elapsed c hs
    have hemit := (emitPhase_txBuf_ok cmd c).1
    rw [hse]
    simp only [hemit, if_true]
    have hcfg : (emitPhase cmd none c).2.config = c.config :=
      (emitPhase_preserves cmd none c).2.2.1
    have hrq : (emitPhase cmd none c).2.resQ = c.resQ :=
      (emitPhase_preserves cmd none c).1
    have hst : (emitPhase cmd none c).2.state = .AwaitingResponse :=
      emitPhase_true_state cmd none c hemit
    have hm' : (emitPhase cmd none c).2.config.mode = .NonBlocking := by
      rw [hcfg, hm]
    obtain ⟨te, hte, hres, -⟩ := emitPhase_events_delta cmd none c
    have hp' : (emitPhase cmd none c).2.resPolls = c.resPolls := by
      simp [Client.resPolls, hte, List.count_append, List.count_eq_zero.mpr hres]
    constructor
    · simp only [dispatch, hm']
      have h1 := hpoll (emitPhase cmd none c).2
      rw [hp'] at h1
      rcases hr : checkResponse cmd elapsed (emitPhase cmd none c).2 with ⟨r, c'⟩
      rw [hr] at h1
      simpa using h1
    · intro hq
      have hq' : (emitPhase cmd none c).2.resQ = [] := by rw [hrq, hq]
      have hcr := checkResponse_block cmd elapsed (emitPhase cmd none c).2 hq'
        (Or.inl (by rw [hm']; simp))
      simp only [dispatch, hm', hcr]
      exact ⟨by simp [CheckResult.toSend], by simp [hst]⟩

/-- Witness for C6: a NonBlocking retry on an empty queue polls once
and would-block. -/
theorem C6_nonblocking_single_poll_witness :
    (send cmdEx none false (clientEx .NonBlocking .AwaitingResponse [])).2.resPolls = 1 ∧
    (send cmdEx none false (clientEx .NonBlocking .AwaitingResponse [])).1 = .wouldBlock ∧
    (send cmdEx none false
        (clientEx .NonBlocking .AwaitingResponse [])).2.state = .AwaitingResponse := by
  have h := (C6_nonblocking_single_poll cmdEx none false
    (clientEx .NonBlocking .AwaitingResponse [])).2 rfl (Or.inl rfl)
  exact ⟨by simpa [clientEx, Client.resPolls] using h.1, (h.2 rfl).1, (h.2 rfl).2⟩

/-- C5: with no response slot, Timeout mode and an elapsed timer,
`check_response` transitions to Idle, enqueues `ClearBuffer`
best-effort (a full command queue changes nothing else) and returns
the timeout outcome, which collapses to `Err(Error::Timeout)`; in
Blocking and NonBlocking modes `check_response` never produces the
timeout outcome. -/
theorem C5_bounded_timeout_only {R : Type} (cmd : AtatCmd R) (elapsed : Bool)
    (c : Client) :
    (c.resQ = [] → c.config.mode = .Timeout → elapsed = true →
      checkResponse cmd elapsed c =
        (.timeout,
         Client.comEnqueue { c with state := .Idle, events := c.events ++ [.resPoll] }
           .ClearBuffer) ∧
      (CheckResult.toNb (R := R) .timeout) = .err .Timeout) ∧
    (c.config.mode ≠ .Timeout → (checkResponse cmd elapsed c).1 ≠ .timeout) := by
  constructor
  · intro hq hm he
    exact ⟨checkResponse_timeout cmd elapsed c hq hm he, rfl⟩
  · intro hm
    rcases client_cases elapsed c with ⟨p, rest, hq, hs⟩ | ⟨p, rest, hq, hs⟩ |
      ⟨e, rest, hq⟩ | ⟨hq, hm', he⟩ | ⟨hq, h⟩
    · rw [checkResponse_ok_awaiting cmd elapsed c p rest hq hs]
      cases hp : cmd.parse p <;> simp
    · rw [checkResponse_ok_idle cmd elapsed c p rest hq hs]
      simp
    · rw [checkResponse_err cmd elapsed c e rest hq]
      simp
    · exact absurd hm' hm
    · rw [checkResponse_block cmd elapsed c hq h]
      simp

/-- C9: a full command queue never changes what the host sees: for any
two clients equal on every host-visible field (so possibly differing in
command-queue contents and capacity — e.g. one with a full queue on
which `ForceState`/`ClearBuffer` enqueues fail), `send` returns the
same outcome and the same visible state; and emission still writes the
full serialized command even when the `ForceState` enqueue failed. -/
theorem C9_com_queue_full_invisible {R : Type} (cmd : AtatCmd R) (txFail : Option Nat)
    (elapsed : Bool) (c₁ c₂ : Client) (h : c₁.visible = c₂.visible) :
    (send cmd txFail elapsed c₁).1 = (send cmd txFail elapsed c₂).1 ∧
    (send cmd txFail elapsed c₁).2.visible = (send cmd txFail elapsed c₂).2.visible ∧
    (c₁.state = .Idle → txFail = none →
      (send cmd txFail elapsed c₁).2.txBuf = c₁.txBuf ++ cmd.as_string) := by
  obtain ⟨htx, hrq, huq, hst, hcf, hev⟩ := visible_fields h
  have hmain : (send cmd txFail elapsed c₁).1 = (send cmd txFail elapsed c₂).1 ∧
      (send cmd txFail elapsed c₁).2.visible = (send cmd txFail elapsed c₂).2.visible := by
    cases hs : c₁.state with
    | AwaitingResponse =>
      have hs₂ : c₂.state = .AwaitingResponse := by rw [← hst]; exact hs
      rw [send_awaiting cmd txFail elapsed c₁ hs, send_awaiting cmd txFail elapsed c₂ hs₂]
      exact dispatch_congr cmd elapsed h
    | Idle =>
      have hs₂ : c₂.state = .Idle := by rw [← hst]; exact hs
      rw [send_idle cmd txFail elapsed c₁ hs, send_idle cmd txFail elapsed c₂ hs₂]
      obtain ⟨he1, he2⟩ := emitPhase_congr cmd txFail h
      by_cases he : (emitPhase cmd txFail c₁).1 = true
      · have he₂ : (emitPhase cmd txFail c₂).1 = true := by rw [← he1]; exact he
        simp only [he, he₂, if_true]
        exact dispatch_congr cmd elapsed he2
      · have he₂ : ¬(emitPhase cmd txFail c₂).1 = true := by rw [← he1]; exact he
        rw [if_neg he, if_neg he₂]
        exact ⟨rfl, he2⟩
  refine ⟨hmain.1, hmain.2, ?_⟩
  intro hs htf
  subst htf
  rw [send_idle cmd none elapsed c₁ hs]
  have hemit := emitPhase_txBuf_ok cmd c₁
  simp only [hemit.1, if_true]
  have hd := (dispatch_no_emission_effects cmd elapsed (emitPhase cmd none c₁).2).1
  rw [hd, hemit.2]

/-- Witness for C9: same command, same visible client, capacity 1
versus capacity 0 (the latter drops the `ForceState` hint): identical
outcome and visible state, and the bytes are emitted regardless. -/
theorem C9_com_queue_full_invisible_witness :
    (send cmdEx none false (clientEx .Blocking .Idle [.ok []])).1 =
      (send cmdEx none false
        { clientEx .Blocking .Idle [.ok []] with comCap := 0 }).1 ∧
    (send cmdEx none false (clientEx .Blocking .Idle [.ok []])).2.visible =
      (send cmdEx none false
        { clientEx .Blocking .Idle [.ok []] with comCap := 0 }).2.visible ∧
    (send cmdEx none false (clientEx .Blocking .Idle [.ok []])).2.txBuf = [65, 84] := by
  have h := C9_com_queue_full_invisible cmdEx none false
    (clientEx .Blocking .Idle [.ok []])
    { clientEx .Blocking .Idle [.ok []] with comCap := 0 } rfl
  exact ⟨h.1, h.2.1, by simpa [clientEx, cmdEx] using h.2.2 rfl rfl⟩

/-- C10: in Timeout (BoundedTimeout) mode every dispatch — in
particular a retry `send` issued while the state is already
AwaitingResponse — restarts the timer with `cmd.max_timeout_ms` before
polling for the response: the recorded event delta begins with
`timerStart max_timeout_ms` immediately followed by the first
`resPoll`, so the deadline is measured from the most recent `send`
call. -/
theorem C10_timeout_restarts_each_send {R : Type} (cmd : AtatCmd R)
    (txFail : Option Nat) (elapsed : Bool) (c : Client)
    (hm : c.config.mode = .Timeout) :
    (c.state = .AwaitingResponse →
      ∃ t, (send cmd txFail elapsed c).2.events =
        c.events ++ Event.timerStart cmd.max_timeout_ms :: Event.resPoll :: t) ∧
    (c.state = .Idle → txFail = none →
      ∃ pre t, (send cmd txFail elapsed c).2.events =
        c.events ++ pre ++ Event.timerStart cmd.max_timeout_ms :: Event.resPoll :: t ∧
        Event.resPoll ∉ pre ∧ (∀ d, Event.timerStart d ∉ pre)) := by
  have hdisp : ∀ c' : Client, c'.config.mode = .Timeout →
      ∃ t, (dispatch cmd elapsed c').2.events =
        c'.events ++ Event.timerStart cmd.max_timeout_ms :: Event.resPoll :: t := by
    intro c' hm'
    simp only [dispatch, hm']
    obtain ⟨t, ht⟩ := blockLoop_poll_first cmd elapsed (c'.timerStart cmd.max_timeout_ms)
      (c'.timerStart cmd.max_timeout_ms).resQ.length
    exact ⟨t, by simpa [Client.timerStart] using ht⟩
  constructor
  · intro hs
    rw [send_awaiting cmd txFail elapsed c hs]
    exact hdisp c hm
  · intro hs htf
    subst htf
    rw [send_idle cmd none elapsed c hs]
    have hemit := (emitPhase_txBuf_ok cmd c).1
    simp only [hemit, if_true]
    have hm' : (emitPhase cmd none c).2.config.mode = .Timeout := by
      rw [(emitPhase_preserves cmd none c).2.2.1, hm]
    obtain ⟨pre, hpre, hp1, hp2⟩ := emitPhase_events_delta cmd none c
    obtain ⟨t, ht⟩ := hdisp (emitPhase cmd none c).2 hm'
    exact ⟨pre, t, by rw [ht, hpre], hp1, hp2⟩

/-- Witness for C10: a Timeout-mode retry re-arms the timer with the
command timeout before its poll. -/
theorem C10_timeout_restarts_each_send_witness :
    ∃ t, (send cmdEx none true (clientEx .Timeout .AwaitingResponse [])).2.events =
      Event.timerStart 1000 :: Event.resPoll :: t := by
  have h := (C10_timeout_restarts_each_send cmdEx none true
    (clientEx .Timeout .AwaitingResponse []) rfl).1 rfl
  simpa [clientEx, cmdEx] using h

/-- Witness for C5: the timeout fires in Timeout mode and cannot fire
in Blocking mode. -/
theorem C5_bounded_timeout_only_witness :
    (checkResponse cmdEx true (clientEx .Timeout .AwaitingResponse [])).1 = .timeout ∧
    (checkResponse cmdEx true (clientEx .Blocking .AwaitingResponse [])).1 ≠ .timeout := by
  constructor
  · have h := ((C5_bounded_timeout_only cmdEx true
      (clientEx .Timeout .AwaitingResponse [])).1 rfl rfl rfl).1
    rw [h]
  · exact (C5_bounded_timeout_only cmdEx true
      (clientEx .Blocking .AwaitingResponse [])).2 (by decide)

end Atat
